import Mathlib

/-
Shallow embedding of `drivers/bridge/endpoint_store.go`: the endpoint
persistence and restore subsystem of the bridge network driver.

The embedding models:
  * the wire string forms of addresses, MACs and port bindings
    (`types`/`net` package helpers, which are not part of this file of the
    repository and are modelled from the spec where noted);
  * generic JSON values as produced by Go's `json.Unmarshal` into
    `map[string]interface{}` (the `JVal` type);
  * the custom `MarshalJSON`/`UnmarshalJSON` codecs of `bridgeEndpoint`,
    `endpointConfiguration` and `containerConfiguration`, including the
    Go dynamic-type assertions they perform (a failed assertion is a
    runtime panic, modelled as the distinguished outcome `GoErr.goPanic`,
    which is not a returned error value);
  * the store listing / table population functions
    (`getEndpointsFromStore`, `populateEndpoints`);
  * `Key`/`KeyPrefix`, and a heap model of `CopyTo` for the aliasing
    (deep-copy independence) properties.
-/

/-! ## Character-level string helpers -/

/-- Split a character list at every occurrence of `sep` (the single-character
case of Go's `strings.Split`, used here as the kernel-reducible workhorse for
all wire-format parsing). -/
def splitOnC (sep : Char) : List Char → List (List Char)
  | [] => [[]]
  | c :: cs =>
    let r := splitOnC sep cs
    if c = sep then [] :: r
    else
      match r with
      | h :: t => (c :: h) :: t
      | [] => [[c]]

/-- Join character-list groups with a separator character. -/
def joinSep (sep : Char) : List (List Char) → List Char
  | [] => []
  | [g] => g
  | g :: gs => g ++ sep :: joinSep sep gs

/-- Decimal value of a digit character. -/
def digitVal (c : Char) : Option Nat :=
  if '0' ≤ c ∧ c ≤ '9' then some (c.toNat - 48) else none

/-- Parse a non-empty all-digit character list as a decimal number. -/
def decNat (cs : List Char) : Option Nat :=
  match cs with
  | [] => none
  | _ => cs.foldl (fun acc c => acc.bind fun a => (digitVal c).map fun d => a * 10 + d) (some 0)

/-- Hex value of a digit character (both cases, as accepted by Go's
`net.ParseMAC`). -/
def hexVal (c : Char) : Option Nat :=
  if '0' ≤ c ∧ c ≤ '9' then some (c.toNat - 48)
  else if 'a' ≤ c ∧ c ≤ 'f' then some (c.toNat - 87)
  else if 'A' ≤ c ∧ c ≤ 'F' then some (c.toNat - 55)
  else none

/-- A byte written as exactly two hex characters. -/
def hexByte : List Char → Option Nat
  | [h, l] => (hexVal h).bind fun a => (hexVal l).map fun b => a * 16 + b
  | _ => none

/-- Lowercase hex digit character for `n < 16`. -/
def hexChar (n : Nat) : Char :=
  if n < 10 then Char.ofNat (48 + n) else Char.ofNat (87 + n)

/-- A byte printed as two lowercase hex characters (the form produced by
`net.HardwareAddr.String`). -/
def hexPairChars (b : Nat) : List Char :=
  [hexChar (b / 16 % 16), hexChar (b % 16)]

/-- Decimal digit characters of a number. -/
def natChars (n : Nat) : List Char := Nat.toDigits 10 n

/-! ## Wire string forms of the `types`/`net` package values

Modelled from the spec: the `types` and `net` packages of the repository are
not under `src/`; the spec states that addresses are "rendered as CIDR
strings", MACs "as colon-separated hex", and port bindings/transport ports in
their "canonical port-binding string form". The models below implement the
IPv4 dotted-quad fragment of those forms concretely (printer and parser as a
matching pair, as in the Go library code for that fragment). -/

/-- An IP network address as kept by `types.ParseCIDR`: the (unmasked) host
address bytes together with the prefix length. (`types.ParseCIDR` parses via
`net.ParseCIDR` and then restores the full host address into the returned
`*net.IPNet`, which is what makes `String ∘ ParseCIDR` the identity on
canonical strings.) -/
structure IPNet where
  ip : List Nat
  ones : Nat
deriving DecidableEq

/-- Parse a dotted-quad IPv4 address: exactly four decimal groups, each at
most 255. -/
def parseIPv4 (cs : List Char) : Option (List Nat) :=
  match (splitOnC '.' cs).mapM decNat with
  | some [a, b, c, d] =>
    if a ≤ 255 ∧ b ≤ 255 ∧ c ≤ 255 ∧ d ≤ 255 then some [a, b, c, d] else none
  | _ => none

/-- Modelled from the spec: `types.ParseCIDR` (address fields "must be valid
CIDR-form network addresses"), on the IPv4 dotted-quad fragment. -/
def ParseCIDR (s : String) : Option IPNet :=
  match splitOnC '/' s.data with
  | [ipCs, mCs] =>
    (parseIPv4 ipCs).bind fun ip =>
    (decNat mCs).bind fun m =>
    if m ≤ 32 then some ⟨ip, m⟩ else none
  | _ => none

/-- Dotted-quad printing of a 4-byte address (`net.IP.String` on the
fragment used by this development). -/
def ipChars (bs : List Nat) : List Char :=
  if bs.length = 4 then joinSep '.' (bs.map natChars) else ['?']

/-- CIDR string form of an address, as emitted by `MarshalJSON`
(`net.IPNet.String`). -/
def IPNet.toStr (a : IPNet) : String :=
  ⟨ipChars a.ip ++ '/' :: natChars a.ones⟩

/-- Modelled from the spec: `net.ParseMAC` on the colon-separated six-byte
form ("colon-separated hex"). -/
def ParseMAC (s : String) : Option (List Nat) :=
  match (splitOnC ':' s.data).mapM hexByte with
  | some bs => if bs.length = 6 then some bs else none
  | none => none

/-- Colon-separated lowercase hex string of a MAC
(`net.HardwareAddr.String`). -/
def macStr (bs : List Nat) : String :=
  ⟨joinSep ':' (bs.map hexPairChars)⟩

/-- Modelled from the spec: a port mapping is an "association between an
externally reachable port and an internal endpoint port plus protocol"
(`types.PortBinding`, not under `src/`), treated as a value per the
deep-copy contract ("value-copies each entry"). -/
structure PortBinding where
  proto : String
  port : Nat
  hostIP : List Nat
  hostPort : Nat
deriving DecidableEq

/-- Canonical port-binding string form, shaped after the spec's example
`"172.17.0.2:80/tcp:80"`. -/
def PortBinding.toStr (pb : PortBinding) : String :=
  ⟨ipChars pb.hostIP ++ ':' :: natChars pb.hostPort ++ '/' :: pb.proto.data ++ ':' :: natChars pb.port⟩

/-- Modelled from the spec: `types.PortBinding.FromString`, the parse
direction of the canonical port-binding string form. -/
def PortBinding.FromString (s : String) : Option PortBinding :=
  match splitOnC '/' s.data with
  | [hostCs, rest] =>
    match splitOnC ':' hostCs, splitOnC ':' rest with
    | [ipCs, hpCs], [prCs, pCs] =>
      (parseIPv4 ipCs).bind fun ip =>
      (decNat hpCs).bind fun hp =>
      (decNat pCs).map fun p => ⟨⟨prCs⟩, p, ip, hp⟩
    | _, _ => none
  | _ => none

/-- Modelled from the spec: `types.TransportPort`, a "transport-port/protocol
pair". -/
structure TransportPort where
  proto : String
  port : Nat
deriving DecidableEq

/-- String form of a transport port (protocol and port). -/
def TransportPort.toStr (tp : TransportPort) : String :=
  ⟨tp.proto.data ++ '/' :: natChars tp.port⟩

/-- Modelled from the spec: `types.TransportPort.FromString`. -/
def TransportPort.FromString (s : String) : Option TransportPort :=
  match splitOnC '/' s.data with
  | [prCs, pCs] => (decNat pCs).map fun p => ⟨⟨prCs⟩, p⟩
  | _ => none

/-! ## Generic JSON values

`JVal` is the universe of values Go's `json.Unmarshal` produces when decoding
into `interface{}` / `map[string]interface{}`: JSON null becomes a nil
interface, booleans become `bool`, numbers `float64`, strings `string`,
arrays `[]interface{}` and objects `map[string]interface{}`. -/

inductive JVal where
  | null
  | bool (b : Bool)
  | num (n : Int)
  | str (s : String)
  | arr (elems : List JVal)
  | obj (fields : List (String × JVal))

/-- Lookup in the decoded `map[string]interface{}` (keys are unique in a Go
map, so first-match lookup is exact). -/
def jlookup (m : List (String × JVal)) (k : String) : Option JVal :=
  match m with
  | [] => none
  | (k', v) :: rest => if k' = k then some v else jlookup rest k

/-- The keys present in an encoded JSON object. -/
def objKeys : JVal → List String
  | .obj fields => fields.map Prod.fst
  | _ => []

/-- The string payload of a map entry, if the entry is present and its
dynamic type is `string`. -/
def strVal : Option JVal → Option String
  | some (.str s) => some s
  | _ => none

/-- A present map entry is string-typed, or the entry is absent: the shapes
on which the optional-field decode steps do not panic. -/
def strShape : Option JVal → Bool
  | none => true
  | some (.str _) => true
  | _ => false

/-- Whether optional field `f` parses raw string `raw` (CIDR parse for the
address fields, MAC parse for `macAddress`). -/
def optFieldParses (f raw : String) : Bool :=
  if f = "macAddress" then (ParseMAC raw).isSome else (ParseCIDR raw).isSome

/-! ## Go runtime outcomes of a decode -/

/-- Outcome of a failing decode. `goPanic` models a Go runtime panic (a
failed non-comma-ok type assertion): it is a crash, not an error value
returned to the caller. The other constructors are returned error values:
`fieldErr f raw` models the `types.InternalErrorf` messages that name the
field that failed to parse together with the offending raw string,
`wrapErr f` the `InternalErrorf` wrapper around a sub-codec error for field
`f`, and `jsonErr` an error returned by generic `json.Unmarshal`. -/
inductive GoErr where
  | goPanic
  | fieldErr (field raw : String)
  | wrapErr (field : String)
  | jsonErr
deriving DecidableEq

/-- Go type assertion `v.(string)` on a map entry: yields the string when the
entry is present with dynamic type `string`; otherwise (absent key, i.e. nil
interface, or any other dynamic type) it panics. -/
def assertString : Option JVal → Except GoErr String
  | some (.str s) => .ok s
  | _ => .error .goPanic

/-- Go type assertion `v.([]string)` on a map entry produced by
`json.Unmarshal` into `map[string]interface{}`: the generic decoder yields
JSON arrays as `[]interface{}` and never as `[]string`, and an absent key
yields a nil interface, so this non-comma-ok assertion panics for every
possible entry. -/
def assertStringSlice (_ : Option JVal) : Except GoErr (List String) :=
  .error .goPanic

/-- Error-propagating sequencing of decode steps (`if err != nil { return err }`). -/
def gbind (x : Except GoErr α) (f : α → Except GoErr β) : Except GoErr β :=
  match x with
  | .error e => .error e
  | .ok a => f a

/-! ## The persisted record types -/

/-- `endpointConfiguration` (fields as declared in the bridge driver): a nil
`MacAddress` is the empty list, nil slices are empty lists. -/
structure endpointConfiguration where
  MacAddress : List Nat
  PortBindings : List PortBinding
  ExposedPorts : List TransportPort
deriving DecidableEq

/-- `containerConfiguration`: linkage metadata between endpoints. -/
structure containerConfiguration where
  ParentEndpoints : List String
  ChildEndpoints : List String
deriving DecidableEq

/-- `bridgeEndpoint` (value view, for the codec and store claims): the
`network *bridgeNetwork` back-reference is carried as `networkId`, the only
part of it the functions under study use (`Key`/`KeyPrefix` read
`ep.network.id`). A nil `*net.IPNet` is `none`, a nil/empty hardware address
is `[]`, nil slices are empty lists. -/
structure bridgeEndpoint where
  id : String
  srcName : String
  addr : Option IPNet
  addrv6 : Option IPNet
  macAddress : List Nat
  config : Option endpointConfiguration
  containerConfig : Option containerConfiguration
  portMapping : List PortBinding
  networkId : String
deriving DecidableEq

/-! ## Codec: `containerConfiguration` -/

/-- `containerConfiguration.MarshalJSON`: both fields are always emitted.
(Go marshals a nil `[]string` as JSON null and a non-nil one as an array;
the embedding renders the list as an array — on the decode side both shapes
meet the same always-panicking `[]string` assertion, see below.) -/
def containerConfiguration.MarshalJSON (cf : containerConfiguration) : JVal :=
  .obj [("ParentEndpoints", .arr (cf.ParentEndpoints.map JVal.str)),
        ("ChildEndpoints", .arr (cf.ChildEndpoints.map JVal.str))]

/-- `containerConfiguration.UnmarshalJSON`: generic decode into a map, then
`cMap["ParentEndpoints"].([]string)` and `cMap["ChildEndpoints"].([]string)`.
The decode target is freshly allocated by `json.Unmarshal` (zero value), and
both fields are assigned before returning, so the result is a function of the
input alone. -/
def containerConfiguration.UnmarshalJSON (b : JVal) : Except GoErr containerConfiguration :=
  match b with
  | .obj cMap =>
    gbind (assertStringSlice (jlookup cMap "ParentEndpoints")) fun ps =>
    gbind (assertStringSlice (jlookup cMap "ChildEndpoints")) fun cs =>
    .ok ⟨ps, cs⟩
  | _ => .error .jsonErr

/-! ## Codec: `endpointConfiguration` -/

/-- `endpointConfiguration.MarshalJSON`: every field is emitted only when
non-empty. -/
def endpointConfiguration.MarshalJSON (ec : endpointConfiguration) : JVal :=
  .obj ((if ec.MacAddress.length ≠ 0
         then [("MacAddress", JVal.str (macStr ec.MacAddress))] else [])
    ++ (if ec.PortBindings.length ≠ 0
        then [("PortBindings", JVal.arr (ec.PortBindings.map (fun pm => JVal.str pm.toStr)))]
        else [])
    ++ (if ec.ExposedPorts.length ≠ 0
        then [("ExposedPorts", JVal.arr (ec.ExposedPorts.map (fun tp => JVal.str tp.toStr)))]
        else []))

/-- The `for _, str := range ...` loop over an asserted `[]string` of port
bindings: aborts at the first string `FromString` rejects, with the
`InternalErrorf` message carrying the offending raw string. -/
def decodePBList (field : String) : List String → Except GoErr (List PortBinding)
  | [] => .ok []
  | s :: rest =>
    match PortBinding.FromString s with
    | none => .error (.fieldErr field s)
    | some pb => gbind (decodePBList field rest) fun pbs => .ok (pb :: pbs)

/-- The corresponding loop for exposed ports. -/
def decodeTPList (field : String) : List String → Except GoErr (List TransportPort)
  | [] => .ok []
  | s :: rest =>
    match TransportPort.FromString s with
    | none => .error (.fieldErr field s)
    | some tp => gbind (decodeTPList field rest) fun tps => .ok (tp :: tps)

/-- `endpointConfiguration.UnmarshalJSON`: generic decode into a map;
`MacAddress` is parsed only if present (`net.ParseMAC` on an asserted
string); `PortBindings`/`ExposedPorts`, if present, are read through the
`[]string` assertion. The decode target is freshly allocated
(`json.Unmarshal` into a nil pointer), so absent keys leave the zero value. -/
def endpointConfiguration.UnmarshalJSON (b : JVal) : Except GoErr endpointConfiguration :=
  match b with
  | .obj cMap =>
    gbind (match jlookup cMap "MacAddress" with
           | none => .ok []
           | some w =>
             match w with
             | .str s =>
               match ParseMAC s with
               | some m => .ok m
               | none => .error (.fieldErr "MacAddress" s)
             | _ => .error .goPanic) fun mac =>
    gbind (match jlookup cMap "PortBindings" with
           | none => .ok []
           | some w => gbind (assertStringSlice (some w)) (decodePBList "PortBindings")) fun pbs =>
    gbind (match jlookup cMap "ExposedPorts" with
           | none => .ok []
           | some w => gbind (assertStringSlice (some w)) (decodeTPList "ExposedPorts")) fun tps =>
    .ok ⟨mac, pbs, tps⟩
  | _ => .error .jsonErr

/-! ## Codec: `bridgeEndpoint` -/

/-- `bridgeEndpoint.MarshalJSON`: `id` and `srcName` always; `addr`,
`addrv6` only if set (CIDR strings); `macAddress` only if non-empty;
`config` and `containerConfiguration` always (a nil pointer marshals to JSON
null, a non-nil one through its own `MarshalJSON`); `portMapping` only if
non-empty, as an array of canonical strings. The Go `map[string]interface{}`
is modelled as an association list; `json.Marshal` sorts map keys in the
byte output, but the decoder reads the map purely by key, so the field list
order is irrelevant to every property below. -/
def bridgeEndpoint.MarshalJSON (ep : bridgeEndpoint) : JVal :=
  .obj ([("id", JVal.str ep.id), ("srcName", JVal.str ep.srcName)]
    ++ (match ep.addr with
        | some a => [("addr", JVal.str a.toStr)]
        | none => [])
    ++ (match ep.addrv6 with
        | some a => [("addrv6", JVal.str a.toStr)]
        | none => [])
    ++ (if ep.macAddress.length ≠ 0
        then [("macAddress", JVal.str (macStr ep.macAddress))] else [])
    ++ [("config", match ep.config with
                   | some c => c.MarshalJSON
                   | none => JVal.null),
        ("containerConfiguration", match ep.containerConfig with
                   | some c => c.MarshalJSON
                   | none => JVal.null)]
    ++ (if ep.portMapping.length ≠ 0
        then [("portMapping", JVal.arr (ep.portMapping.map (fun pm => JVal.str pm.toStr)))]
        else []))

/-- The `addr`/`addrv6` decode step: parsed only if the key is present (the
field keeps its previous value otherwise); a present entry goes through the
`.(string)` assertion and `types.ParseCIDR`, failure returning the
`InternalErrorf` error naming the field and the raw string. -/
def decodeOptCIDR (field : String) (keep : Option IPNet) (v : Option JVal) :
    Except GoErr (Option IPNet) :=
  match v with
  | none => .ok keep
  | some w =>
    match w with
    | .str s =>
      match ParseCIDR s with
      | some x => .ok (some x)
      | none => .error (.fieldErr field s)
    | _ => .error .goPanic

/-- The `macAddress` decode step (`net.ParseMAC` on a present entry). -/
def decodeOptMAC (keep : List Nat) (v : Option JVal) : Except GoErr (List Nat) :=
  match v with
  | none => .ok keep
  | some w =>
    match w with
    | .str s =>
      match ParseMAC s with
      | some m => .ok m
      | none => .error (.fieldErr "macAddress" s)
    | _ => .error .goPanic

/-- The `config` decode step: `json.Marshal` of the generic map entry
followed by `json.Unmarshal` into a `*endpointConfiguration`. Re-marshalling
a generic JSON value and re-parsing it is the identity on `JVal`, so the
step interprets the entry directly: an absent entry marshals (nil interface)
to JSON null, and JSON null makes `json.Unmarshal` set the pointer to nil
without invoking the sub-codec; any other value reaches
`endpointConfiguration.UnmarshalJSON`. A returned sub-codec error is wrapped
in a fresh `InternalErrorf`; a panic propagates. -/
def decodeSubConfig (v : Option JVal) : Except GoErr (Option endpointConfiguration) :=
  match v.getD .null with
  | .null => .ok none
  | j =>
    match endpointConfiguration.UnmarshalJSON j with
    | .ok c => .ok (some c)
    | .error .goPanic => .error .goPanic
    | .error _ => .error (.wrapErr "config")

/-- The `containerConfiguration` decode step (same shape as `config`). -/
def decodeSubContainerConfig (v : Option JVal) : Except GoErr (Option containerConfiguration) :=
  match v.getD .null with
  | .null => .ok none
  | j =>
    match containerConfiguration.UnmarshalJSON j with
    | .ok c => .ok (some c)
    | .error .goPanic => .error .goPanic
    | .error _ => .error (.wrapErr "containerConfiguration")

/-- The `portMapping` decode step: skipped when absent (leaving the `pms`
accumulator nil); a present entry goes through the always-panicking
`.([]string)` assertion before the `FromString` loop. -/
def decodePortMapping (v : Option JVal) : Except GoErr (List PortBinding) :=
  match v with
  | none => .ok []
  | some w => gbind (assertStringSlice (some w)) (decodePBList "portMapping")

/-- `bridgeEndpoint.UnmarshalJSON`: generic decode into a map (a non-object
input makes `json.Unmarshal` return an error), then the field steps in
source order. `ep` is the decode target: fields whose keys are absent and
are only conditionally assigned (`addr`, `addrv6`, `macAddress`) keep their
previous values, while `config`, `containerConfig` and `portMapping` are
assigned unconditionally. -/
def bridgeEndpoint.UnmarshalJSON (ep : bridgeEndpoint) (b : JVal) :
    Except GoErr bridgeEndpoint :=
  match b with
  | .obj nMap =>
    gbind (assertString (jlookup nMap "id")) fun idS =>
    gbind (assertString (jlookup nMap "srcName")) fun srcS =>
    gbind (decodeOptCIDR "addr" ep.addr (jlookup nMap "addr")) fun addrV =>
    gbind (decodeOptCIDR "addrv6" ep.addrv6 (jlookup nMap "addrv6")) fun addr6V =>
    gbind (decodeOptMAC ep.macAddress (jlookup nMap "macAddress")) fun macV =>
    gbind (decodeSubConfig (jlookup nMap "config")) fun cfgV =>
    gbind (decodeSubContainerConfig (jlookup nMap "containerConfiguration")) fun ccV =>
    gbind (decodePortMapping (jlookup nMap "portMapping")) fun pms =>
    .ok { ep with id := idS, srcName := srcS, addr := addrV, addrv6 := addr6V,
                  macAddress := macV, config := cfgV, containerConfig := ccV,
                  portMapping := pms }
  | _ => .error .jsonErr

/-! ## Store-record contract: keys and prototype -/

/-- The record-kind tag of bridge endpoint records. -/
def bridgeEndpointPrefix : String := "bridge_endpoint"

/-- `bridgeEndpoint.Key`: `("bridge_endpoint", network-id, endpoint-id)`. -/
def bridgeEndpoint.Key (ep : bridgeEndpoint) : List String :=
  [bridgeEndpointPrefix, ep.networkId, ep.id]

/-- `bridgeEndpoint.KeyPrefix`: `("bridge_endpoint", network-id)`. -/
def bridgeEndpoint.KeyPrefix (ep : bridgeEndpoint) : List String :=
  [bridgeEndpointPrefix, ep.networkId]

/-- `bridgeEndpoint.New`: a zero-value record bound to the same network. -/
def bridgeEndpoint.New (networkId : String) : bridgeEndpoint :=
  ⟨"", "", none, none, [], none, none, [], networkId⟩

/-! ## Restore protocol -/

/-- Store listing errors: the sentinel `datastore.ErrKeyNotFound`, or any
other listing failure. -/
inductive StoreErr where
  | keyNotFound
  | other (msg : String)
deriving DecidableEq

/-- Outcome of the store collaborator's `List(keyPrefix, prototype)` call: a
record list, or an error (the store returns no records together with an
error). -/
inductive ListOutcome where
  | ok (eps : List bridgeEndpoint)
  | listErr (e : StoreErr)

/-- The network's in-memory state: its id and the endpoint table. -/
structure bridgeNetwork where
  id : String
  endpoints : List (String × bridgeEndpoint)
deriving DecidableEq

/-- Go map assignment `n.endpoints[ep.id] = ep` on the association-list
model of the table. -/
def mapPut (m : List (String × bridgeEndpoint)) (k : String) (v : bridgeEndpoint) :
    List (String × bridgeEndpoint) :=
  (k, v) :: m.filter (fun p => p.1 ≠ k)

/-- `getEndpointsFromStore`: `err == datastore.ErrKeyNotFound` falls through
to the (empty) result loop; any other error is returned with the nil list. -/
def getEndpointsFromStore (o : ListOutcome) : Except StoreErr (List bridgeEndpoint) :=
  match o with
  | .ok eps => .ok eps
  | .listErr e => if e = StoreErr.keyNotFound then .ok [] else .error e

/-- `populateEndpoints`: propagate a listing error (before touching the
table), otherwise bind each record's network back-reference and insert it
into the endpoint table under the lock. Returns the Go error result together
with the resulting network state. -/
def populateEndpoints (n : bridgeNetwork) (o : ListOutcome) :
    Except StoreErr Unit × bridgeNetwork :=
  match getEndpointsFromStore o with
  | .error e => (.error e, n)
  | .ok eps =>
    (.ok (),
     eps.foldl
       (fun acc ep =>
         { acc with endpoints := mapPut acc.endpoints ep.id { ep with networkId := acc.id } })
       n)

/-- An endpoint record with every optional field absent/empty. -/
def epBare : bridgeEndpoint :=
  { id := "ep1", srcName := "veth0", addr := none, addrv6 := none, macAddress := [],
    config := none, containerConfig := none, portMapping := [], networkId := "net1" }

/-! ## Concrete records used by the claim evaluations -/

/-- An endpoint record with every optional field populated. -/
def epAllOpt : bridgeEndpoint :=
  { id := "ep1", srcName := "veth0",
    addr := some ⟨[172, 17, 0, 2], 16⟩, addrv6 := some ⟨[10, 0, 0, 1], 24⟩,
    macAddress := [2, 66, 172, 17, 0, 2],
    config := some ⟨[2, 66, 172, 17, 0, 2], [⟨"tcp", 80, [172, 17, 0, 2], 8080⟩], [⟨"tcp", 80⟩]⟩,
    containerConfig := some ⟨["parent1"], ["child1"]⟩,
    portMapping := [⟨"tcp", 80, [172, 17, 0, 2], 8080⟩],
    networkId := "net1" }


/-! ## Heap model for `CopyTo`

The deep-copy claims are about aliasing of mutable storage, so the relevant
pointer/slice fields are modelled as locations into an explicit heap. One
location stands for one piece of mutable backing storage: a `*net.IPNet`
with its byte slices (collapsed into one cell, per the value-semantics
duplication contract of `types.GetIPNetCopy`, which is modelled from the
spec: "never aliasing the source's underlying byte storage"), a hardware
address slice (`types.GetMacCopy`, likewise), a port-binding or
transport-port slice (entries are values, per the spec's "value-copies each
entry"), a string slice, or a sub-configuration object whose own fields are
again locations. -/

inductive HVal where
  | ipCell (ip mask : List Nat)
  | macCell (bytes : List Nat)
  | pbCell (pbs : List PortBinding)
  | tpCell (tps : List TransportPort)
  | strCell (ss : List String)
  | epcCell (mac pbs tps : Option Nat)
  | ccCell (parents children : Option Nat)
deriving DecidableEq

/-- The heap: an allocation counter and the cell contents. -/
structure HeapM where
  next : Nat
  mem : Nat → Option HVal

/-- Allocate a fresh cell. -/
def HeapM.alloc (h : HeapM) (v : HVal) : HeapM × Nat :=
  ({ next := h.next + 1, mem := fun l => if l = h.next then some v else h.mem l }, h.next)

/-- Mutate the storage at a location in place (the heap effect of a caller
writing through a pointer or into a slice). -/
def hUpdate (h : HeapM) (l : Nat) (v : HVal) : HeapM :=
  { h with mem := fun x => if x = l then some v else h.mem x }

/-- `types.GetIPNetCopy` / `types.GetMacCopy` (modelled from the spec):
nil in, nil out; otherwise a freshly allocated cell holding the same
payload. -/
def copyCell (h : HeapM) (src : Option Nat) : HeapM × Option Nat :=
  match src with
  | none => (h, none)
  | some l =>
    let r := h.alloc ((h.mem l).getD (.macCell []))
    (r.1, some r.2)

/-- Dereference an `endpointConfiguration` cell into its three field
locations. -/
def readEpcCell (h : HeapM) (l : Nat) : Option Nat × Option Nat × Option Nat :=
  match h.mem l with
  | some (.epcCell m p t) => (m, p, t)
  | _ => (none, none, none)

/-- Dereference a `containerConfiguration` cell into its two field
locations. -/
def readCcCell (h : HeapM) (l : Nat) : Option Nat × Option Nat :=
  match h.mem l with
  | some (.ccCell p c) => (p, c)
  | _ => (none, none)

/-- Contents of a port-binding slice (a nil slice reads as the empty list,
matching `len` on a nil Go slice). -/
def readPbs (h : HeapM) (lo : Option Nat) : List PortBinding :=
  match lo with
  | none => []
  | some l =>
    match h.mem l with
    | some (.pbCell pbs) => pbs
    | _ => []

/-- Contents of a transport-port slice. -/
def readTps (h : HeapM) (lo : Option Nat) : List TransportPort :=
  match lo with
  | none => []
  | some l =>
    match h.mem l with
    | some (.tpCell tps) => tps
    | _ => []

/-- Contents of a string slice. -/
def readStrs (h : HeapM) (lo : Option Nat) : List String :=
  match lo with
  | none => []
  | some l =>
    match h.mem l with
    | some (.strCell ss) => ss
    | _ => []

/-- `bridgeEndpoint`, heap view: the mutable fields are locations. -/
structure bridgeEndpointH where
  id : String
  srcName : String
  addr : Option Nat
  addrv6 : Option Nat
  macAddress : Option Nat
  config : Option Nat
  containerConfig : Option Nat
  portMapping : Option Nat
  networkId : String

/-- `bridgeEndpoint.CopyTo` on the heap model, line by line from the source:
`id`/`srcName` by value; `addr`/`addrv6`/`macAddress` through
`GetIPNetCopy`/`GetMacCopy`; `config` and `containerConfig` freshly
allocated and recursively deep-copied only when the source field is non-nil
(`endpointConfiguration.CopyTo` copies its MAC via `GetMacCopy` and always
makes fresh `PortBindings`/`ExposedPorts` slices;
`containerConfiguration.CopyTo` always makes fresh parent/child string
slices); `portMapping` always a fresh slice of the same length with
value-copied entries. -/
def bridgeEndpointH.CopyTo (h : HeapM) (src dst : bridgeEndpointH) :
    HeapM × bridgeEndpointH :=
  let rAddr := copyCell h src.addr
  let rAddr6 := copyCell rAddr.1 src.addrv6
  let rMac := copyCell rAddr6.1 src.macAddress
  let rCfg :=
    match src.config with
    | none => (rMac.1, dst.config)
    | some l =>
      let s := readEpcCell rMac.1 l
      let rM := copyCell rMac.1 s.1
      let rP := rM.1.alloc (.pbCell (readPbs rM.1 s.2.1))
      let rT := rP.1.alloc (.tpCell (readTps rP.1 s.2.2))
      let rC := rT.1.alloc (.epcCell rM.2 (some rP.2) (some rT.2))
      (rC.1, some rC.2)
  let rCc :=
    match src.containerConfig with
    | none => (rCfg.1, dst.containerConfig)
    | some l =>
      let s := readCcCell rCfg.1 l
      let rPar := rCfg.1.alloc (.strCell (readStrs rCfg.1 s.1))
      let rCh := rPar.1.alloc (.strCell (readStrs rPar.1 s.2))
      let rC := rCh.1.alloc (.ccCell (some rPar.2) (some rCh.2))
      (rC.1, some rC.2)
  let rPm := rCc.1.alloc (.pbCell (readPbs rCc.1 src.portMapping))
  (rPm.1,
   { id := src.id, srcName := src.srcName, addr := rAddr.2, addrv6 := rAddr6.2,
     macAddress := rMac.2, config := rCfg.2, containerConfig := rCc.2,
     portMapping := some rPm.2, networkId := dst.networkId })

/-- Singleton or empty location list of an optional location. -/
def optLoc : Option Nat → List Nat
  | none => []
  | some l => [l]

/-- All mutable storage reachable from a record: its direct cells plus the
cells its sub-configuration cells point to. -/
def reachEp (h : HeapM) (ep : bridgeEndpointH) : List Nat :=
  optLoc ep.addr ++ optLoc ep.addrv6 ++ optLoc ep.macAddress ++
  (match ep.config with
   | none => []
   | some l =>
     l :: (optLoc (readEpcCell h l).1 ++ optLoc (readEpcCell h l).2.1 ++
           optLoc (readEpcCell h l).2.2)) ++
  (match ep.containerConfig with
   | none => []
   | some l => l :: (optLoc (readCcCell h l).1 ++ optLoc (readCcCell h l).2)) ++
  optLoc ep.portMapping

/-- Dereference an optional location. -/
def readOpt (h : HeapM) : Option Nat → Option HVal
  | none => none
  | some l => h.mem l

/-- Everything observable about a record through its handles: the value
fields and the full dereferenced contents of every pointed-to cell. -/
structure EpView where
  idV : String
  srcNameV : String
  addrV : Option HVal
  addrv6V : Option HVal
  macV : Option HVal
  configV : Option (Option HVal × Option HVal × Option HVal)
  ccV : Option (Option HVal × Option HVal)
  pmV : Option HVal
deriving DecidableEq

/-- Read out a record's observable view from the heap. -/
def readEp (h : HeapM) (ep : bridgeEndpointH) : EpView :=
  { idV := ep.id, srcNameV := ep.srcName,
    addrV := readOpt h ep.addr, addrv6V := readOpt h ep.addrv6,
    macV := readOpt h ep.macAddress,
    configV := ep.config.map fun l =>
      (readOpt h (readEpcCell h l).1, readOpt h (readEpcCell h l).2.1,
       readOpt h (readEpcCell h l).2.2),
    ccV := ep.containerConfig.map fun l =>
      (readOpt h (readCcCell h l).1, readOpt h (readCcCell h l).2),
    pmV := readOpt h ep.portMapping }

/-- The data contents of a source record with every optional field present:
the universally quantified payloads laid out by `mkEp`. -/
structure EpContents where
  idC : String
  srcNameC : String
  ipC : List Nat
  maskC : List Nat
  ip6C : List Nat
  mask6C : List Nat
  macC : List Nat
  cfgMacC : List Nat
  cfgPbsC : List PortBinding
  cfgTpsC : List TransportPort
  parentsC : List String
  childrenC : List String
  pmC : List PortBinding

/-- The empty heap. -/
def emptyHeap : HeapM := { next := 0, mem := fun _ => none }

/-- `New()` on the heap view: a zero-value record (all pointers nil). -/
def freshEpH (networkId : String) : bridgeEndpointH :=
  { id := "", srcName := "", addr := none, addrv6 := none, macAddress := none,
    config := none, containerConfig := none, portMapping := none,
    networkId := networkId }

/-- Lay out a record with every optional field present over the empty heap:
cells 0-2 for the addresses and MAC, 3-6 for the endpoint configuration and
its fields, 7-9 for the container configuration and its fields, 10 for the
port-mapping slice. -/
def mkEp (c : EpContents) : HeapM × bridgeEndpointH :=
  let r0 := emptyHeap.alloc (.ipCell c.ipC c.maskC)
  let r1 := r0.1.alloc (.ipCell c.ip6C c.mask6C)
  let r2 := r1.1.alloc (.macCell c.macC)
  let r3 := r2.1.alloc (.macCell c.cfgMacC)
  let r4 := r3.1.alloc (.pbCell c.cfgPbsC)
  let r5 := r4.1.alloc (.tpCell c.cfgTpsC)
  let r6 := r5.1.alloc (.epcCell (some r3.2) (some r4.2) (some r5.2))
  let r7 := r6.1.alloc (.strCell c.parentsC)
  let r8 := r7.1.alloc (.strCell c.childrenC)
  let r9 := r8.1.alloc (.ccCell (some r7.2) (some r8.2))
  let rA := r9.1.alloc (.pbCell c.pmC)
  (rA.1,
   { id := c.idC, srcName := c.srcNameC, addr := some r0.2, addrv6 := some r1.2,
     macAddress := some r2.2, config := some r6.2, containerConfig := some r9.2,
     portMapping := some rA.2, networkId := "net1" })

/-- The heap, source record and copy after running `CopyTo` from the laid-out
source into a fresh prototype record. -/
def copyState (c : EpContents) : HeapM × bridgeEndpointH × bridgeEndpointH :=
  let s := mkEp c
  let r := bridgeEndpointH.CopyTo s.1 s.2 (freshEpH "net1")
  (r.1, s.2, r.2)

/-! ### Sanity evaluations of the codec (concrete inputs) -/

example : ParseCIDR "172.17.0.2/16" = some ⟨[172, 17, 0, 2], 16⟩ := by decide
example : ParseCIDR "not-a-cidr" = none := by decide
example : (IPNet.toStr ⟨[172, 17, 0, 2], 16⟩) = "172.17.0.2/16" := by decide
example : macStr [2, 66, 172, 17, 0, 2] = "02:42:ac:11:00:02" := by decide
example : ParseMAC "02:42:ac:11:00:02" = some [2, 66, 172, 17, 0, 2] := by decide
example : ParseMAC "not-a-mac" = none := by decide
example :
    PortBinding.toStr ⟨"tcp", 80, [172, 17, 0, 2], 8080⟩ = "172.17.0.2:8080/tcp:80" := by
  decide
example :
    PortBinding.FromString "172.17.0.2:8080/tcp:80" =
      some ⟨"tcp", 80, [172, 17, 0, 2], 8080⟩ := by decide

example :
    bridgeEndpoint.UnmarshalJSON (bridgeEndpoint.New "net1")
      (bridgeEndpoint.MarshalJSON epBare) = .ok epBare := by rfl

example (c : EpContents) :
    reachEp (copyState c).1 (copyState c).2.1 = [0, 1, 2, 6, 3, 4, 5, 9, 7, 8, 10] := rfl

example (c : EpContents) :
    reachEp (copyState c).1 (copyState c).2.2 =
      [11, 12, 13, 17, 14, 15, 16, 20, 18, 19, 21] := rfl

example (c : EpContents) (v : HVal) :
    readEp (hUpdate (copyState c).1 15 v) (copyState c).2.1 =
      readEp (copyState c).1 (copyState c).2.1 := rfl

/-! ## Helper lemmas about the decode steps -/

theorem gbind_error (e : GoErr) (f : α → Except GoErr β) :
    gbind (.error e) f = .error e := rfl

theorem gbind_ok (a : α) (f : α → Except GoErr β) :
    gbind (.ok a) f = f a := rfl


theorem assertString_of_strVal_none (v : Option JVal) (h : strVal v = none) :
    assertString v = .error .goPanic := by
  rcases v with _ | w
  · rfl
  · cases w <;> simp_all [strVal, assertString]

theorem assertString_of_strVal_some (v : Option JVal) (s : String)
    (h : strVal v = some s) : assertString v = .ok s := by
  rcases v with _ | w
  · simp [strVal] at h
  · cases w <;> simp_all [strVal, assertString]

theorem decodeOptCIDR_ok (field : String) (keep : Option IPNet) (v : Option JVal)
    (hshape : strShape v = true)
    (hnotbad : ¬ ∃ s, v = some (JVal.str s) ∧ ParseCIDR s = none) :
    ∃ r, decodeOptCIDR field keep v = .ok r := by
  rcases v with _ | w
  · exact ⟨keep, rfl⟩
  · cases w with
    | str s =>
      rcases hps : ParseCIDR s with _ | x
      · exact (hnotbad ⟨s, rfl, hps⟩).elim
      · exact ⟨some x, by simp [decodeOptCIDR, hps]⟩
    | null => simp [strShape] at hshape
    | bool b => simp [strShape] at hshape
    | num n => simp [strShape] at hshape
    | arr es => simp [strShape] at hshape
    | obj fs => simp [strShape] at hshape

theorem decodeOptMAC_ok (keep : List Nat) (v : Option JVal)
    (hshape : strShape v = true)
    (hnotbad : ¬ ∃ s, v = some (JVal.str s) ∧ ParseMAC s = none) :
    ∃ r, decodeOptMAC keep v = .ok r := by
  rcases v with _ | w
  · exact ⟨keep, rfl⟩
  · cases w with
    | str s =>
      rcases hps : ParseMAC s with _ | x
      · exact (hnotbad ⟨s, rfl, hps⟩).elim
      · exact ⟨x, by simp [decodeOptMAC, hps]⟩
    | null => simp [strShape] at hshape
    | bool b => simp [strShape] at hshape
    | num n => simp [strShape] at hshape
    | arr es => simp [strShape] at hshape
    | obj fs => simp [strShape] at hshape

/-! ## Claim theorems -/

/-- C1 (claim refuted by the code; claim evaluated at the failing input):
encode-then-decode is the identity for a record with all optional fields
absent, but for a record with all optional fields present the decode of the
encoded bytes aborts with a runtime panic instead of returning the record:
the `.([]string)` type assertions on the re-decoded generic map
(`config.PortBindings`, `containerConfiguration.ParentEndpoints`,
`portMapping`) fail on every value `json.Unmarshal` can produce, because
JSON arrays decode to `[]interface{}`. -/
theorem roundtrip_panics_with_optionals_present :
    bridgeEndpoint.UnmarshalJSON (bridgeEndpoint.New "net1")
        (bridgeEndpoint.MarshalJSON epAllOpt) = .error .goPanic ∧
    bridgeEndpoint.UnmarshalJSON (bridgeEndpoint.New "net1")
        (bridgeEndpoint.MarshalJSON epBare) = .ok epBare :=
  ⟨rfl, rfl⟩

/-- C2 counterexample: decoding a record whose required `id` key is missing
does not return an error value at all — it aborts with a runtime panic
(`nMap["id"].(string)` on a nil interface, modelled `GoErr.goPanic`), so it
is not the claimed explicit MalformedRecord decoding error. -/
theorem missing_id_panics :
    bridgeEndpoint.UnmarshalJSON (bridgeEndpoint.New "net1")
      (.obj [("srcName", JVal.str "veth0")]) = .error .goPanic := rfl

/-- C2 (amended): when `id` or `srcName` is absent or not string-typed, the
decode aborts with a runtime type-assertion panic rather than returning an
explicit decoding error. -/
theorem missing_required_key_panics (ep : bridgeEndpoint) (m : List (String × JVal))
    (h : strVal (jlookup m "id") = none ∨ strVal (jlookup m "srcName") = none) :
    bridgeEndpoint.UnmarshalJSON ep (.obj m) = .error .goPanic := by
  simp only [bridgeEndpoint.UnmarshalJSON]
  rcases h with h | h
  · rw [assertString_of_strVal_none _ h, gbind_error]
  · rcases hid : strVal (jlookup m "id") with _ | s
    · rw [assertString_of_strVal_none _ hid, gbind_error]
    · rw [assertString_of_strVal_some _ _ hid]
      simp only [gbind_ok]
      rw [assertString_of_strVal_none _ h, gbind_error]

/-- C2 witness for the amended statement. -/
theorem missing_required_key_panics_witness :
    (strVal (jlookup [("srcName", JVal.str "veth0")] "id") = none ∨
     strVal (jlookup [("srcName", JVal.str "veth0")] "srcName") = none) ∧
    bridgeEndpoint.UnmarshalJSON (bridgeEndpoint.New "net1")
      (.obj [("srcName", JVal.str "veth0")]) = .error .goPanic :=
  ⟨Or.inl rfl,
   missing_required_key_panics (bridgeEndpoint.New "net1") [("srcName", JVal.str "veth0")]
     (Or.inl rfl)⟩

/-- C3: with the required keys well-formed and any present `addr`/`addrv6`
key string-typed, if one of `addr`, `addrv6`, `macAddress` is present with
an unparsable string then the decode aborts with a returned error naming a
failing field among the three and carrying its offending raw string. -/
theorem decode_names_unparsable_optional (ep : bridgeEndpoint) (m : List (String × JVal))
    (hid : (strVal (jlookup m "id")).isSome = true)
    (hsrc : (strVal (jlookup m "srcName")).isSome = true)
    (h1 : strShape (jlookup m "addr") = true)
    (h2 : strShape (jlookup m "addrv6") = true)
    (hbad : (∃ s, jlookup m "addr" = some (JVal.str s) ∧ ParseCIDR s = none) ∨
            (∃ s, jlookup m "addrv6" = some (JVal.str s) ∧ ParseCIDR s = none) ∨
            (∃ s, jlookup m "macAddress" = some (JVal.str s) ∧ ParseMAC s = none)) :
    ∃ f raw, (f = "addr" ∨ f = "addrv6" ∨ f = "macAddress") ∧
      jlookup m f = some (JVal.str raw) ∧ optFieldParses f raw = false ∧
      bridgeEndpoint.UnmarshalJSON ep (.obj m) = .error (.fieldErr f raw) := by
  obtain ⟨i, hi⟩ := Option.isSome_iff_exists.mp hid
  obtain ⟨sv, hs⟩ := Option.isSome_iff_exists.mp hsrc
  simp only [bridgeEndpoint.UnmarshalJSON]
  rw [assertString_of_strVal_some _ _ hi]
  simp only [gbind_ok]
  rw [assertString_of_strVal_some _ _ hs]
  simp only [gbind_ok]
  by_cases hb1 : ∃ s, jlookup m "addr" = some (JVal.str s) ∧ ParseCIDR s = none
  · obtain ⟨s, hls, hp⟩ := hb1
    refine ⟨"addr", s, Or.inl rfl, hls, by simp [optFieldParses, hp], ?_⟩
    rw [hls]
    simp only [decodeOptCIDR, hp, gbind_error]
  · obtain ⟨r1, hr1⟩ := decodeOptCIDR_ok "addr" ep.addr _ h1 hb1
    rw [hr1]
    simp only [gbind_ok]
    by_cases hb2 : ∃ s, jlookup m "addrv6" = some (JVal.str s) ∧ ParseCIDR s = none
    · obtain ⟨s, hls, hp⟩ := hb2
      refine ⟨"addrv6", s, Or.inr (Or.inl rfl), hls, by simp [optFieldParses, hp], ?_⟩
      rw [hls]
      simp only [decodeOptCIDR, hp, gbind_error]
    · obtain ⟨r2, hr2⟩ := decodeOptCIDR_ok "addrv6" ep.addrv6 _ h2 hb2
      rw [hr2]
      simp only [gbind_ok]
      by_cases hb3 : ∃ s, jlookup m "macAddress" = some (JVal.str s) ∧ ParseMAC s = none
      · obtain ⟨s, hls, hp⟩ := hb3
        refine ⟨"macAddress", s, Or.inr (Or.inr rfl), hls, by simp [optFieldParses, hp], ?_⟩
        rw [hls]
        simp only [decodeOptMAC, hp, gbind_error]
      · rcases hbad with hx | hx | hx
        · exact (hb1 hx).elim
        · exact (hb2 hx).elim
        · exact (hb3 hx).elim

/-- C3 witness: `addr: "not-a-cidr"` is rejected with an error naming a
field and the raw string. -/
theorem decode_names_unparsable_optional_witness :
    ((strVal (jlookup [("id", JVal.str "ep1"), ("srcName", JVal.str "veth0"),
        ("addr", JVal.str "not-a-cidr")] "id")).isSome = true ∧
     (∃ s, jlookup [("id", JVal.str "ep1"), ("srcName", JVal.str "veth0"),
        ("addr", JVal.str "not-a-cidr")] "addr" = some (JVal.str s) ∧ ParseCIDR s = none)) ∧
    ∃ f raw, (f = "addr" ∨ f = "addrv6" ∨ f = "macAddress") ∧
      jlookup [("id", JVal.str "ep1"), ("srcName", JVal.str "veth0"),
        ("addr", JVal.str "not-a-cidr")] f = some (JVal.str raw) ∧
      optFieldParses f raw = false ∧
      bridgeEndpoint.UnmarshalJSON (bridgeEndpoint.New "net1")
        (.obj [("id", JVal.str "ep1"), ("srcName", JVal.str "veth0"),
          ("addr", JVal.str "not-a-cidr")]) = .error (.fieldErr f raw) :=
  ⟨⟨rfl, ⟨"not-a-cidr", rfl, rfl⟩⟩,
   decode_names_unparsable_optional (bridgeEndpoint.New "net1")
     [("id", JVal.str "ep1"), ("srcName", JVal.str "veth0"), ("addr", JVal.str "not-a-cidr")]
     rfl rfl rfl rfl (Or.inl ⟨"not-a-cidr", rfl, rfl⟩)⟩

/-- C4: a listing error other than not-found is returned by
`populateEndpoints` and the endpoint table (indeed the whole network state)
is left unchanged — the error is propagated before any insertion. -/
theorem populateEndpoints_propagates_listErr (n : bridgeNetwork) (e : StoreErr)
    (h : e ≠ StoreErr.keyNotFound) :
    populateEndpoints n (.listErr e) = (.error e, n) := by
  simp [populateEndpoints, getEndpointsFromStore, h]

/-- C4 witness. -/
theorem populateEndpoints_propagates_listErr_witness :
    (StoreErr.other "store down" ≠ StoreErr.keyNotFound) ∧
    populateEndpoints ⟨"net1", []⟩ (.listErr (.other "store down")) =
      (.error (.other "store down"), ⟨"net1", []⟩) :=
  ⟨by decide,
   populateEndpoints_propagates_listErr ⟨"net1", []⟩ (.other "store down") (by decide)⟩

/-- C5: the not-found listing outcome is treated as an empty result: no
error, and the endpoint table ends up with no endpoints added (the network
state is unchanged). -/
theorem populateEndpoints_notFound_empty (n : bridgeNetwork) :
    populateEndpoints n (.listErr .keyNotFound) = (.ok (), n) := rfl

/-- Absence of a key in the decoded map is exactly a `none` lookup. -/
theorem jlookup_eq_none_iff (m : List (String × JVal)) (k : String) :
    jlookup m k = none ↔ k ∉ m.map Prod.fst := by
  induction m with
  | nil => simp [jlookup]
  | cons p rest ih =>
    obtain ⟨k', v⟩ := p
    by_cases h : k' = k
    · subst h
      simp [jlookup]
    · simp [jlookup, h, ih, Ne.symm h]

/-- C6: encoding omits the `addrv6` key entirely when the IPv6 address is
unset (no zero-valued address string is emitted), and likewise omits
`addr`, `macAddress` and `portMapping` when unset/empty. -/
theorem MarshalJSON_omits_unset_optionals (ep : bridgeEndpoint) :
    (ep.addr = none → "addr" ∉ objKeys ep.MarshalJSON) ∧
    (ep.addrv6 = none → "addrv6" ∉ objKeys ep.MarshalJSON) ∧
    (ep.macAddress = [] → "macAddress" ∉ objKeys ep.MarshalJSON) ∧
    (ep.portMapping = [] → "portMapping" ∉ objKeys ep.MarshalJSON) := by
  refine ⟨fun h => ?_, fun h => ?_, fun h => ?_, fun h => ?_⟩ <;>
    simp only [bridgeEndpoint.MarshalJSON, objKeys] <;>
    rw [← jlookup_eq_none_iff] <;> rw [h] <;>
    rcases ep.addr with _ | a <;> rcases ep.addrv6 with _ | b <;>
    rcases ep.macAddress with _ | ⟨x, xs⟩ <;> rcases ep.portMapping with _ | ⟨y, ys⟩ <;>
    rfl

/-- C6 witness: a record with the four optional fields unset omits all four
keys. -/
theorem MarshalJSON_omits_unset_optionals_witness :
    (epBare.addr = none ∧ "addr" ∉ objKeys epBare.MarshalJSON) ∧
    (epBare.addrv6 = none ∧ "addrv6" ∉ objKeys epBare.MarshalJSON) ∧
    (epBare.macAddress = [] ∧ "macAddress" ∉ objKeys epBare.MarshalJSON) ∧
    (epBare.portMapping = [] ∧ "portMapping" ∉ objKeys epBare.MarshalJSON) :=
  ⟨⟨rfl, (MarshalJSON_omits_unset_optionals epBare).1 rfl⟩,
   ⟨rfl, (MarshalJSON_omits_unset_optionals epBare).2.1 rfl⟩,
   ⟨rfl, (MarshalJSON_omits_unset_optionals epBare).2.2.1 rfl⟩,
   ⟨rfl, (MarshalJSON_omits_unset_optionals epBare).2.2.2 rfl⟩⟩

set_option maxHeartbeats 2000000 in
/-- C7: after `CopyTo` copies source record A (every optional field present,
arbitrary contents) into a fresh prototype, producing B: A and B share no
mutable storage location; mutating any storage reachable from B leaves
everything observable about A unchanged; and vice versa. -/
theorem CopyTo_deep_copy_independent (c : EpContents) :
    (∀ l ∈ reachEp (copyState c).1 (copyState c).2.2,
       l ∉ reachEp (copyState c).1 (copyState c).2.1) ∧
    (∀ l ∈ reachEp (copyState c).1 (copyState c).2.2, ∀ v,
       readEp (hUpdate (copyState c).1 l v) (copyState c).2.1 =
         readEp (copyState c).1 (copyState c).2.1) ∧
    (∀ l ∈ reachEp (copyState c).1 (copyState c).2.1, ∀ v,
       readEp (hUpdate (copyState c).1 l v) (copyState c).2.2 =
         readEp (copyState c).1 (copyState c).2.2) := by
  have hA : reachEp (copyState c).1 (copyState c).2.1 =
      [0, 1, 2, 6, 3, 4, 5, 9, 7, 8, 10] := rfl
  have hB : reachEp (copyState c).1 (copyState c).2.2 =
      [11, 12, 13, 17, 14, 15, 16, 20, 18, 19, 21] := rfl
  refine ⟨?_, ?_, ?_⟩
  · rw [hA, hB]
    decide
  · rw [hB]
    intro l hl v
    simp only [List.mem_cons, List.not_mem_nil, or_false] at hl
    rcases hl with rfl | rfl | rfl | rfl | rfl | rfl | rfl | rfl | rfl | rfl | rfl <;> rfl
  · rw [hA]
    intro l hl v
    simp only [List.mem_cons, List.not_mem_nil, or_false] at hl
    rcases hl with rfl | rfl | rfl | rfl | rfl | rfl | rfl | rfl | rfl | rfl | rfl <;> rfl

set_option maxHeartbeats 2000000 in
/-- C7 witness: a concrete copy, with a concrete location of the copy's
port-mapping storage exercising the disjointness conclusion. -/
theorem CopyTo_deep_copy_independent_witness :
    (21 ∈ reachEp (copyState ⟨"ep1", "veth0", [172, 17, 0, 2], [255, 255, 0, 0],
        [10, 0, 0, 1], [255, 255, 255, 0], [2, 66, 172, 17, 0, 2], [2, 66, 172, 17, 0, 3],
        [⟨"tcp", 80, [172, 17, 0, 2], 8080⟩], [⟨"tcp", 80⟩], ["parent1"], ["child1"],
        [⟨"udp", 53, [172, 17, 0, 2], 53⟩]⟩).1
      (copyState ⟨"ep1", "veth0", [172, 17, 0, 2], [255, 255, 0, 0],
        [10, 0, 0, 1], [255, 255, 255, 0], [2, 66, 172, 17, 0, 2], [2, 66, 172, 17, 0, 3],
        [⟨"tcp", 80, [172, 17, 0, 2], 8080⟩], [⟨"tcp", 80⟩], ["parent1"], ["child1"],
        [⟨"udp", 53, [172, 17, 0, 2], 53⟩]⟩).2.2) ∧
    21 ∉ reachEp (copyState ⟨"ep1", "veth0", [172, 17, 0, 2], [255, 255, 0, 0],
        [10, 0, 0, 1], [255, 255, 255, 0], [2, 66, 172, 17, 0, 2], [2, 66, 172, 17, 0, 3],
        [⟨"tcp", 80, [172, 17, 0, 2], 8080⟩], [⟨"tcp", 80⟩], ["parent1"], ["child1"],
        [⟨"udp", 53, [172, 17, 0, 2], 53⟩]⟩).1
      (copyState ⟨"ep1", "veth0", [172, 17, 0, 2], [255, 255, 0, 0],
        [10, 0, 0, 1], [255, 255, 255, 0], [2, 66, 172, 17, 0, 2], [2, 66, 172, 17, 0, 3],
        [⟨"tcp", 80, [172, 17, 0, 2], 8080⟩], [⟨"tcp", 80⟩], ["parent1"], ["child1"],
        [⟨"udp", 53, [172, 17, 0, 2], 53⟩]⟩).2.1 :=
  ⟨by decide,
   (CopyTo_deep_copy_independent ⟨"ep1", "veth0", [172, 17, 0, 2], [255, 255, 0, 0],
        [10, 0, 0, 1], [255, 255, 255, 0], [2, 66, 172, 17, 0, 2], [2, 66, 172, 17, 0, 3],
        [⟨"tcp", 80, [172, 17, 0, 2], 8080⟩], [⟨"tcp", 80⟩], ["parent1"], ["child1"],
        [⟨"udp", 53, [172, 17, 0, 2], 53⟩]⟩).1 21 (by decide)⟩

/-- C8: `Key()` is exactly `("bridge_endpoint", network-id, endpoint-id)`,
`KeyPrefix()` is exactly `("bridge_endpoint", network-id)`, and `Key()` is
`KeyPrefix()` with the endpoint identifier appended. -/
theorem bridgeEndpoint_Key_scheme (ep : bridgeEndpoint) :
    bridgeEndpoint.Key ep = ["bridge_endpoint", ep.networkId, ep.id] ∧
    bridgeEndpoint.KeyPrefix ep = ["bridge_endpoint", ep.networkId] ∧
    bridgeEndpoint.Key ep = bridgeEndpoint.KeyPrefix ep ++ [ep.id] :=
  ⟨rfl, rfl, rfl⟩

/-- C9: a null or absent `config`/`containerConfiguration` value does not
crash the decode: with the required keys present and the other optional keys
absent, decoding succeeds and leaves both sub-configurations nil. -/
theorem null_subconfig_decode_succeeds (ep : bridgeEndpoint) (m : List (String × JVal))
    (hid : (strVal (jlookup m "id")).isSome = true)
    (hsrc : (strVal (jlookup m "srcName")).isSome = true)
    (haddr : jlookup m "addr" = none) (haddr6 : jlookup m "addrv6" = none)
    (hmac : jlookup m "macAddress" = none) (hpm : jlookup m "portMapping" = none)
    (hcfg : (jlookup m "config").getD .null = .null)
    (hcc : (jlookup m "containerConfiguration").getD .null = .null) :
    ∃ ep', bridgeEndpoint.UnmarshalJSON ep (.obj m) = .ok ep' ∧
      ep'.config = none ∧ ep'.containerConfig = none := by
  obtain ⟨i, hi⟩ := Option.isSome_iff_exists.mp hid
  obtain ⟨sv, hs⟩ := Option.isSome_iff_exists.mp hsrc
  simp only [bridgeEndpoint.UnmarshalJSON]
  rw [assertString_of_strVal_some _ _ hi]
  simp only [gbind_ok]
  rw [assertString_of_strVal_some _ _ hs]
  simp only [gbind_ok]
  rw [haddr, haddr6, hmac, hpm]
  simp only [decodeOptCIDR, decodeOptMAC, decodePortMapping, gbind_ok]
  simp only [decodeSubConfig, decodeSubContainerConfig, hcfg, hcc, gbind_ok]
  exact ⟨_, rfl, rfl, rfl⟩

/-- C9 witness: `config` present as JSON null, `containerConfiguration`
absent. -/
theorem null_subconfig_decode_succeeds_witness :
    ((jlookup [("id", JVal.str "ep1"), ("srcName", JVal.str "veth0"),
        ("config", JVal.null)] "config").getD .null = .null ∧
     (jlookup [("id", JVal.str "ep1"), ("srcName", JVal.str "veth0"),
        ("config", JVal.null)] "containerConfiguration").getD .null = .null) ∧
    ∃ ep', bridgeEndpoint.UnmarshalJSON (bridgeEndpoint.New "net1")
        (.obj [("id", JVal.str "ep1"), ("srcName", JVal.str "veth0"),
          ("config", JVal.null)]) = .ok ep' ∧
      ep'.config = none ∧ ep'.containerConfig = none :=
  ⟨⟨rfl, rfl⟩,
   null_subconfig_decode_succeeds (bridgeEndpoint.New "net1")
     [("id", JVal.str "ep1"), ("srcName", JVal.str "veth0"), ("config", JVal.null)]
     rfl rfl rfl rfl rfl rfl rfl rfl⟩

/-- C10: when the source's `config` (resp. `containerConfig`) is nil,
`CopyTo` leaves the destination's corresponding field exactly as it was
before the call — a destination holding a stale sub-configuration keeps
it. -/
theorem CopyTo_keeps_dst_subconfig_when_src_nil (h : HeapM) (src dst : bridgeEndpointH) :
    (src.config = none →
      ((bridgeEndpointH.CopyTo h src dst).2).config = dst.config) ∧
    (src.containerConfig = none →
      ((bridgeEndpointH.CopyTo h src dst).2).containerConfig = dst.containerConfig) := by
  constructor <;> intro hc <;> simp [bridgeEndpointH.CopyTo, hc]

/-- C10 witness: a destination with stale sub-configuration pointers keeps
them when the source has none. -/
theorem CopyTo_keeps_dst_subconfig_when_src_nil_witness :
    (bridgeEndpointH.id ⟨"a", "b", none, none, none, none, none, none, "n"⟩ = "a" ∧
     (⟨"a", "b", none, none, none, none, none, none, "n"⟩ : bridgeEndpointH).config = none ∧
     (⟨"a", "b", none, none, none, none, none, none, "n"⟩ : bridgeEndpointH).containerConfig
       = none) ∧
    ((bridgeEndpointH.CopyTo emptyHeap ⟨"a", "b", none, none, none, none, none, none, "n"⟩
        ⟨"", "", none, none, none, some 5, some 6, none, "m"⟩).2).config
      = (⟨"", "", none, none, none, some 5, some 6, none, "m"⟩ : bridgeEndpointH).config ∧
    ((bridgeEndpointH.CopyTo emptyHeap ⟨"a", "b", none, none, none, none, none, none, "n"⟩
        ⟨"", "", none, none, none, some 5, some 6, none, "m"⟩).2).containerConfig
      = (⟨"", "", none, none, none, some 5, some 6, none, "m"⟩ : bridgeEndpointH).containerConfig :=
  ⟨⟨rfl, rfl, rfl⟩,
   (CopyTo_keeps_dst_subconfig_when_src_nil emptyHeap
      ⟨"a", "b", none, none, none, none, none, none, "n"⟩
      ⟨"", "", none, none, none, some 5, some 6, none, "m"⟩).1 rfl,
   (CopyTo_keeps_dst_subconfig_when_src_nil emptyHeap
      ⟨"a", "b", none, none, none, none, none, none, "n"⟩
      ⟨"", "", none, none, none, some 5, some 6, none, "m"⟩).2 rfl⟩
